import Mathlib

/-!
The tree style operation (pkg/document/operations/tree_style.go)

A shallow embedding of the `TreeStyle` operation and of its `Execute` method.

Conventions of the embedding:

* A Go `map[string]string` or `[]string` is an `Option` of a list: `none` is the nil
  container, `some []` the empty non-nil one; `len` is `0` for both.
* A method with the receiver `e *TreeStyle` is a function of the receiver's value that
  gives back the receiver's value after the call, next to what the method returns.
* `Execute` works on a `State`: the operation `*e`, the document root `*root`, and a
  record of the calls made to the collaborators (the root and the tree), in order.
* The packages `crdt` and `resource` are taken as parameters: the types `TreePos`,
  `GCPair`, `DataSize`, `VersionVector`, the tree handle and the root state are type
  variables, and the methods `Execute` calls on the root and the tree are the fields of
  `Collaborators`. Of the package `time`, `Ticket` and its `SetActorID` follow the
  data model of the specification.
* A pointer field holds the value it points to; a nil `*time.Ticket` or `*crdt.TreePos`
  has no counterpart.
-/

namespace Yorkie

/-- Modelled from the spec: `time.ActorID`, a replica's stable identity. Only its
equality is used. -/
abbrev ActorID := String

/-- Modelled from the spec: `time.Ticket`, the immutable value
`{actorID, logicalClock, tieBreakSeq}`. A `*time.Ticket` field refers to such a value. -/
structure Ticket where
  actorID : ActorID
  logicalClock : Int
  tieBreakSeq : Nat
deriving DecidableEq

/-- Modelled from the spec: `Ticket.SetActorID(actorID) → Ticket`, the ticket with its
actor component rebound to `actorID`. -/
def Ticket.SetActorID (t : Ticket) (actorID : ActorID) : Ticket :=
  { t with actorID := actorID }

/-- Go `error` values: `nil` is `none` of `Option GoError`. `ErrNotApplicableDataType`
is the package's own error; `other` stands for every other error value, such as those
a tree primitive returns. -/
inductive GoError where
  | ErrNotApplicableDataType
  | other (msg : String)
deriving DecidableEq

/-- Go `map[string]string`: `none` is the nil map, `some kvs` a non-nil map holding the
entries `kvs`. -/
abbrev GoMap := Option (List (String × String))

/-- Go `[]string`: `none` is the nil slice, `some ks` a non-nil slice of the elements
`ks`. -/
abbrev GoSlice := Option (List String)

/-- Go `len` of a map: the nil map has length 0. -/
def GoMap.len : GoMap → Nat
  | none => 0
  | some kvs => kvs.length

/-- Go `len` of a slice: the nil slice has length 0. -/
def GoSlice.len : GoSlice → Nat
  | none => 0
  | some ks => ks.length

/-- TreeStyle represents the style operation of the tree. The fields `from` and `to` of the
source are `from_` and `to_` here. -/
structure TreeStyle (Pos : Type) where
  parentCreatedAt : Ticket
  from_ : Pos
  to_ : Pos
  attributes : GoMap
  attributesToRemove : GoSlice
  executedAt : Ticket
deriving DecidableEq

/-- NewTreeStyle creates a new instance of TreeStyle (lines 47-62). -/
def NewTreeStyle {Pos : Type} (parentCreatedAt : Ticket) (from_ to_ : Pos)
    (attributes : GoMap) (executedAt : Ticket) : TreeStyle Pos :=
  { parentCreatedAt := parentCreatedAt
    from_ := from_
    to_ := to_
    attributes := attributes
    attributesToRemove := some []
    executedAt := executedAt }

/-- NewTreeStyleRemove creates a new instance of TreeStyle (lines 65-80). -/
def NewTreeStyleRemove {Pos : Type} (parentCreatedAt : Ticket) (from_ to_ : Pos)
    (attributesToRemove : GoSlice) (executedAt : Ticket) : TreeStyle Pos :=
  { parentCreatedAt := parentCreatedAt
    from_ := from_
    to_ := to_
    attributes := some []
    attributesToRemove := attributesToRemove
    executedAt := executedAt }

/-- The `crdt.Element` that `Root.FindByCreatedAt` returns, as the type assertion
`parent.(*crdt.Tree)` sees it: no element at all, a `*crdt.Tree`, or an element of any
other type. -/
inductive Element (Tree : Type) where
  | nil
  | tree (obj : Tree)
  | other
deriving DecidableEq

/-- What `Tree.Style` and `Tree.RemoveStyle` return: `([]crdt.GCPair, resource.DataSize,
error)`. -/
structure PrimResult (Pair Size : Type) where
  pairs : List Pair
  diff : Size
  err : Option GoError
deriving DecidableEq

/-- The methods `Execute` calls on the root and on the tree. `σ` is the state of the
document root with everything reachable from it (the tree included), so a method that
may write gets the state and gives back the new one. `FindByCreatedAt` is a lookup and
only returns the element. `AdjustDiffForGCPair` gets `*diff` and gives back its new
value. -/
structure Collaborators (σ Tree Pos Pair Size VV : Type) where
  FindByCreatedAt : σ → Ticket → Element Tree
  Style : σ → Tree → Pos → Pos → GoMap → Ticket → VV → σ × PrimResult Pair Size
  RemoveStyle : σ → Tree → Pos → Pos → GoSlice → Ticket → VV → σ × PrimResult Pair Size
  RegisterGCPair : σ → Pair → σ
  AdjustDiffForGCPair : σ → Size → Pair → σ × Size
  Acc : σ → Size → σ

/-- One call made by `Execute` to a collaborator, with its arguments. -/
inductive Call (Tree Pos Pair Size VV : Type) where
  | FindByCreatedAt (createdAt : Ticket)
  | Style (obj : Tree) (from_ to_ : Pos) (attributes : GoMap) (executedAt : Ticket)
      (versionVector : VV)
  | RemoveStyle (obj : Tree) (from_ to_ : Pos) (attributesToRemove : GoSlice)
      (executedAt : Ticket) (versionVector : VV)
  | RegisterGCPair (pair : Pair)
  | AdjustDiffForGCPair (diff : Size) (pair : Pair)
  | Acc (diff : Size)
deriving DecidableEq

section CallKinds
variable {Tree Pos Pair Size VV : Type}

/-- Is the call one to `Tree.Style`? -/
def Call.isStyle : Call Tree Pos Pair Size VV → Bool
  | Call.Style _ _ _ _ _ _ => true
  | _ => false

/-- Is the call one to `Tree.RemoveStyle`? -/
def Call.isRemoveStyle : Call Tree Pos Pair Size VV → Bool
  | Call.RemoveStyle _ _ _ _ _ _ => true
  | _ => false

/-- Is the call one to `Root.RegisterGCPair`? -/
def Call.isRegisterGCPair : Call Tree Pos Pair Size VV → Bool
  | Call.RegisterGCPair _ => true
  | _ => false

/-- Is the call one to `Root.AdjustDiffForGCPair`? -/
def Call.isAdjustDiffForGCPair : Call Tree Pos Pair Size VV → Bool
  | Call.AdjustDiffForGCPair _ _ => true
  | _ => false

/-- Is the call one to `Root.Acc`? -/
def Call.isAcc : Call Tree Pos Pair Size VV → Bool
  | Call.Acc _ => true
  | _ => false

/-- The pair a `RegisterGCPair` call registers. -/
def Call.registered : Call Tree Pos Pair Size VV → Option Pair
  | Call.RegisterGCPair pair => some pair
  | _ => none

/-- The diff an `Acc` call accumulates. -/
def Call.accumulated : Call Tree Pos Pair Size VV → Option Size
  | Call.Acc diff => some diff
  | _ => none

end CallKinds

/-- What `Execute` reads and writes: the operation `*e`, the root `*root`, and the calls
made to the collaborators so far, oldest first. -/
structure State (σ Tree Pos Pair Size VV : Type) where
  op : TreeStyle Pos
  root : σ
  calls : List (Call Tree Pos Pair Size VV)
deriving DecidableEq

section Methods
variable {σ Tree Pos Pair Size VV : Type}

/-- The call `root.FindByCreatedAt(createdAt)`. -/
def callFindByCreatedAt (c : Collaborators σ Tree Pos Pair Size VV)
    (s : State σ Tree Pos Pair Size VV) (createdAt : Ticket) :
    State σ Tree Pos Pair Size VV × Element Tree :=
  ({ s with calls := s.calls ++ [Call.FindByCreatedAt createdAt] },
    c.FindByCreatedAt s.root createdAt)

/-- The call `obj.Style(from, to, attributes, executedAt, versionVector)`. -/
def callStyle (c : Collaborators σ Tree Pos Pair Size VV)
    (s : State σ Tree Pos Pair Size VV) (obj : Tree) (from_ to_ : Pos)
    (attributes : GoMap) (executedAt : Ticket) (versionVector : VV) :
    State σ Tree Pos Pair Size VV × PrimResult Pair Size :=
  ({ s with
      root := (c.Style s.root obj from_ to_ attributes executedAt versionVector).1
      calls := s.calls ++ [Call.Style obj from_ to_ attributes executedAt versionVector] },
    (c.Style s.root obj from_ to_ attributes executedAt versionVector).2)

/-- The call `obj.RemoveStyle(from, to, attributesToRemove, executedAt, versionVector)`. -/
def callRemoveStyle (c : Collaborators σ Tree Pos Pair Size VV)
    (s : State σ Tree Pos Pair Size VV) (obj : Tree) (from_ to_ : Pos)
    (attributesToRemove : GoSlice) (executedAt : Ticket) (versionVector : VV) :
    State σ Tree Pos Pair Size VV × PrimResult Pair Size :=
  ({ s with
      root := (c.RemoveStyle s.root obj from_ to_ attributesToRemove executedAt versionVector).1
      calls := s.calls ++
        [Call.RemoveStyle obj from_ to_ attributesToRemove executedAt versionVector] },
    (c.RemoveStyle s.root obj from_ to_ attributesToRemove executedAt versionVector).2)

/-- The call `root.RegisterGCPair(pair)`. -/
def callRegisterGCPair (c : Collaborators σ Tree Pos Pair Size VV)
    (s : State σ Tree Pos Pair Size VV) (pair : Pair) : State σ Tree Pos Pair Size VV :=
  { s with
    root := c.RegisterGCPair s.root pair
    calls := s.calls ++ [Call.RegisterGCPair pair] }

/-- The call `root.AdjustDiffForGCPair(&diff, pair)`: the state and the value of `diff`
after it. -/
def callAdjustDiffForGCPair (c : Collaborators σ Tree Pos Pair Size VV)
    (s : State σ Tree Pos Pair Size VV) (diff : Size) (pair : Pair) :
    State σ Tree Pos Pair Size VV × Size :=
  ({ s with
      root := (c.AdjustDiffForGCPair s.root diff pair).1
      calls := s.calls ++ [Call.AdjustDiffForGCPair diff pair] },
    (c.AdjustDiffForGCPair s.root diff pair).2)

/-- The call `root.Acc(diff)`. -/
def callAcc (c : Collaborators σ Tree Pos Pair Size VV)
    (s : State σ Tree Pos Pair Size VV) (diff : Size) : State σ Tree Pos Pair Size VV :=
  { s with
    root := c.Acc s.root diff
    calls := s.calls ++ [Call.Acc diff] }

/-- The loop `for _, pair := range pairs` of lines 105-108: the state and the value of
`diff` when it ends. -/
def gcLoop (c : Collaborators σ Tree Pos Pair Size VV) :
    List Pair → State σ Tree Pos Pair Size VV → Size → State σ Tree Pos Pair Size VV × Size
  | [], s, diff => (s, diff)
  | pair :: rest, s, diff =>
    gcLoop c rest
      (callAdjustDiffForGCPair c (callRegisterGCPair c s pair) diff pair).1
      (callAdjustDiffForGCPair c (callRegisterGCPair c s pair) diff pair).2

/-- Lines 105-112 of `Execute`: the loop over `pairs`, `root.Acc(diff)`, `return nil`. -/
def bookkeep (c : Collaborators σ Tree Pos Pair Size VV)
    (s : State σ Tree Pos Pair Size VV) (pairs : List Pair) (diff : Size) :
    State σ Tree Pos Pair Size VV × Option GoError :=
  (callAcc c (gcLoop c pairs s diff).1 (gcLoop c pairs s diff).2, none)

/-- Execute executes this operation on the given root (lines 83-113). It gives the
state after the call and the returned error. -/
def TreeStyle.Execute (c : Collaborators σ Tree Pos Pair Size VV)
    (s : State σ Tree Pos Pair Size VV) (versionVector : VV) :
    State σ Tree Pos Pair Size VV × Option GoError :=
  let found := callFindByCreatedAt c s s.op.parentCreatedAt
  let s1 := found.1
  match found.2 with
  | Element.tree obj =>
    if 0 < s1.op.attributes.len then
      let r := callStyle c s1 obj s1.op.from_ s1.op.to_ s1.op.attributes s1.op.executedAt
        versionVector
      match r.2.err with
      | some err => (r.1, some err)
      | none => bookkeep c r.1 r.2.pairs r.2.diff
    else
      let r := callRemoveStyle c s1 obj s1.op.from_ s1.op.to_ s1.op.attributesToRemove
        s1.op.executedAt versionVector
      match r.2.err with
      | some err => (r.1, some err)
      | none => bookkeep c r.1 r.2.pairs r.2.diff
  | _ => (s1, some GoError.ErrNotApplicableDataType)

/-- FromPos returns the start point of the editing range. -/
def TreeStyle.FromPos (e : TreeStyle Pos) : TreeStyle Pos × Pos := (e, e.from_)

/-- ToPos returns the end point of the editing range. -/
def TreeStyle.ToPos (e : TreeStyle Pos) : TreeStyle Pos × Pos := (e, e.to_)

/-- ExecutedAt returns execution time of this operation. -/
def TreeStyle.ExecutedAt (e : TreeStyle Pos) : TreeStyle Pos × Ticket := (e, e.executedAt)

/-- SetActor sets the given actor to this operation: the receiver after the call. -/
def TreeStyle.SetActor (e : TreeStyle Pos) (actorID : ActorID) : TreeStyle Pos :=
  { e with executedAt := e.executedAt.SetActorID actorID }

/-- ParentCreatedAt returns the creation time of the parent. -/
def TreeStyle.ParentCreatedAt (e : TreeStyle Pos) : TreeStyle Pos × Ticket :=
  (e, e.parentCreatedAt)

/-- Attributes returns the content of Style. -/
def TreeStyle.Attributes (e : TreeStyle Pos) : TreeStyle Pos × GoMap := (e, e.attributes)

/-- AttributesToRemove returns the content of Style. -/
def TreeStyle.AttributesToRemove (e : TreeStyle Pos) : TreeStyle Pos × GoSlice :=
  (e, e.attributesToRemove)

/-- The calls `Execute` makes when run from the state `s`: what it appends to the record
of calls. -/
def TreeStyle.madeCalls (c : Collaborators σ Tree Pos Pair Size VV)
    (s : State σ Tree Pos Pair Size VV) (versionVector : VV) :
    List (Call Tree Pos Pair Size VV) :=
  (TreeStyle.Execute c s versionVector).1.calls.drop s.calls.length

/-- The root and the running diff after the bookkeeping of `pairs` is done on them in
order: for each pair the root registers it, then adjusts the diff for it. -/
def foldPairs (c : Collaborators σ Tree Pos Pair Size VV) : List Pair → σ → Size → σ × Size
  | [], root, diff => (root, diff)
  | pair :: rest, root, diff =>
    foldPairs c rest
      (c.AdjustDiffForGCPair (c.RegisterGCPair root pair) diff pair).1
      (c.AdjustDiffForGCPair (c.RegisterGCPair root pair) diff pair).2

/-- The calls of that bookkeeping: for each pair in order, `RegisterGCPair` of it and
then `AdjustDiffForGCPair` of the running diff and it. -/
def pairCalls (c : Collaborators σ Tree Pos Pair Size VV) :
    List Pair → σ → Size → List (Call Tree Pos Pair Size VV)
  | [], _, _ => []
  | pair :: rest, root, diff =>
    Call.RegisterGCPair pair :: Call.AdjustDiffForGCPair diff pair ::
      pairCalls c rest
        (c.AdjustDiffForGCPair (c.RegisterGCPair root pair) diff pair).1
        (c.AdjustDiffForGCPair (c.RegisterGCPair root pair) diff pair).2

/-- A method call on an operation that changes state: `Execute` with a version vector,
or `SetActor` with an actor. -/
inductive Action (VV : Type) where
  | execute (versionVector : VV)
  | setActor (actorID : ActorID)
deriving DecidableEq

/-- The state after one method call; the error `Execute` returns is dropped. -/
def step (c : Collaborators σ Tree Pos Pair Size VV) (s : State σ Tree Pos Pair Size VV) :
    Action VV → State σ Tree Pos Pair Size VV
  | Action.execute versionVector => (TreeStyle.Execute c s versionVector).1
  | Action.setActor actorID => { s with op := s.op.SetActor actorID }

/-- The state after a sequence of method calls, first to last. -/
def run (c : Collaborators σ Tree Pos Pair Size VV) (s : State σ Tree Pos Pair Size VV)
    (actions : List (Action VV)) : State σ Tree Pos Pair Size VV :=
  actions.foldl (step c) s

end Methods

/-- A small document root to evaluate `Execute` on: the registered pairs and the
accumulated usage. -/
structure DemoRoot where
  registry : List Nat
  usage : Int
deriving DecidableEq

/-- Collaborators over `DemoRoot`. The element created at clock 1 is the tree 7, the one
created at clock 2 is not a tree, nothing else exists. The primitives fail on a range
whose start is after its end, and return pairs and a diff even then. -/
def demo : Collaborators DemoRoot Nat Nat Nat Int Nat where
  FindByCreatedAt := fun _ t =>
    if t.logicalClock = 1 then Element.tree 7
    else if t.logicalClock = 2 then Element.other
    else Element.nil
  Style := fun r _ from_ to_ _ _ _ =>
    if from_ ≤ to_ then (r, ⟨[3, 4], 10, none⟩)
    else (r, ⟨[5], 1, some (GoError.other "bad range")⟩)
  RemoveStyle := fun r _ from_ to_ _ _ _ =>
    if from_ ≤ to_ then (r, ⟨[6], -2, none⟩)
    else (r, ⟨[8], 2, some (GoError.other "bad range")⟩)
  RegisterGCPair := fun r p => { r with registry := r.registry ++ [p] }
  AdjustDiffForGCPair := fun r d p => (r, d - p)
  Acc := fun r d => { r with usage := r.usage + d }

/-- A ticket of the actor `A1` with the given clock. -/
def demoTicket (clock : Int) : Ticket :=
  { actorID := "A1", logicalClock := clock, tieBreakSeq := 0 }

/-- A state over `DemoRoot` holding the operation `e`, with nothing registered, nothing
accumulated and no call made. -/
def demoState (e : TreeStyle Nat) : State DemoRoot Nat Nat Nat Int Nat :=
  { op := e, root := { registry := [], usage := 0 }, calls := [] }

/-- A style-add of `bold = true` over the range 0..5 of the tree, at clock 5. -/
def demoAdd : TreeStyle Nat :=
  NewTreeStyle (demoTicket 1) 0 5 (some [("bold", "true")]) (demoTicket 5)

/-- A style-remove of `bold` over the range 0..5 of the tree, at clock 6. -/
def demoRemove : TreeStyle Nat :=
  NewTreeStyleRemove (demoTicket 1) 0 5 (some ["bold"]) (demoTicket 6)

/-- A style-add with no attribute over the range 0..5 of the tree. -/
def demoEmptyAdd : TreeStyle Nat :=
  NewTreeStyle (demoTicket 1) 0 5 (some []) (demoTicket 5)

/-- A style-add over the malformed range 6..5 of the tree. -/
def demoBadRange : TreeStyle Nat :=
  NewTreeStyle (demoTicket 1) 6 5 (some [("bold", "true")]) (demoTicket 5)

/-- A style-remove whose parent, created at clock 2, is not a tree. -/
def demoNoTree : TreeStyle Nat :=
  NewTreeStyleRemove (demoTicket 2) 0 5 (some ["bold"]) (demoTicket 6)

end Yorkie

namespace Yorkie

section Lemmas
variable {σ Tree Pos Pair Size VV : Type}

theorem gcLoop_eq (c : Collaborators σ Tree Pos Pair Size VV) (pairs : List Pair) :
    ∀ (s : State σ Tree Pos Pair Size VV) (diff : Size),
      gcLoop c pairs s diff =
        ({ op := s.op
           root := (foldPairs c pairs s.root diff).1
           calls := s.calls ++ pairCalls c pairs s.root diff },
          (foldPairs c pairs s.root diff).2) := by
  induction pairs with
  | nil => intro s diff; simp [gcLoop, foldPairs, pairCalls]
  | cons pair rest ih =>
    intro s diff
    rw [gcLoop, ih]
    simp [foldPairs, pairCalls, callAdjustDiffForGCPair, callRegisterGCPair]

theorem bookkeep_eq (c : Collaborators σ Tree Pos Pair Size VV)
    (s : State σ Tree Pos Pair Size VV) (pairs : List Pair) (diff : Size) :
    bookkeep c s pairs diff =
      ({ op := s.op
         root := c.Acc (foldPairs c pairs s.root diff).1 (foldPairs c pairs s.root diff).2
         calls := s.calls ++
           (pairCalls c pairs s.root diff ++ [Call.Acc (foldPairs c pairs s.root diff).2]) },
        none) := by
  simp [bookkeep, gcLoop_eq, callAcc]

theorem Execute_not_tree (c : Collaborators σ Tree Pos Pair Size VV)
    (s : State σ Tree Pos Pair Size VV) (vv : VV)
    (h : ∀ obj, c.FindByCreatedAt s.root s.op.parentCreatedAt ≠ Element.tree obj) :
    TreeStyle.Execute c s vv =
      ({ op := s.op, root := s.root
         calls := s.calls ++ [Call.FindByCreatedAt s.op.parentCreatedAt] },
        some GoError.ErrNotApplicableDataType) := by
  unfold TreeStyle.Execute
  simp only [callFindByCreatedAt]

theorem Execute_style_err (c : Collaborators σ Tree Pos Pair Size VV)
    (s : State σ Tree Pos Pair Size VV) (vv : VV) (obj : Tree) (root1 : σ)
    (res : PrimResult Pair Size) (err : GoError)
    (hparent : c.FindByCreatedAt s.root s.op.parentCreatedAt = Element.tree obj)
    (hlen : 0 < s.op.attributes.len)
    (hprim : c.Style s.root obj s.op.from_ s.op.to_ s.op.attributes s.op.executedAt vv =
      (root1, res))
    (herr : res.err = some err) :
    TreeStyle.Execute c s vv =
      ({ op := s.op, root := root1
         calls := s.calls ++ [Call.FindByCreatedAt s.op.parentCreatedAt,
           Call.Style obj s.op.from_ s.op.to_ s.op.attributes s.op.executedAt vv] },
        some err) := by
  unfold TreeStyle.Execute
  simp [callFindByCreatedAt, callStyle, hparent, hlen, hprim, herr]

theorem Execute_style_ok (c : Collaborators σ Tree Pos Pair Size VV)
    (s : State σ Tree Pos Pair Size VV) (vv : VV) (obj : Tree) (root1 : σ)
    (res : PrimResult Pair Size)
    (hparent : c.FindByCreatedAt s.root s.op.parentCreatedAt = Element.tree obj)
    (hlen : 0 < s.op.attributes.len)
    (hprim : c.Style s.root obj s.op.from_ s.op.to_ s.op.attributes s.op.executedAt vv =
      (root1, res))
    (herr : res.err = none) :
    TreeStyle.Execute c s vv =
      ({ op := s.op
         root := c.Acc (foldPairs c res.pairs root1 res.diff).1
           (foldPairs c res.pairs root1 res.diff).2
         calls := s.calls ++ (Call.FindByCreatedAt s.op.parentCreatedAt ::
           Call.Style obj s.op.from_ s.op.to_ s.op.attributes s.op.executedAt vv ::
           (pairCalls c res.pairs root1 res.diff ++
             [Call.Acc (foldPairs c res.pairs root1 res.diff).2])) },
        none) := by
  unfold TreeStyle.Execute
  simp [callFindByCreatedAt, callStyle, hparent, hlen, hprim, herr, bookkeep_eq]

theorem Execute_remove_err (c : Collaborators σ Tree Pos Pair Size VV)
    (s : State σ Tree Pos Pair Size VV) (vv : VV) (obj : Tree) (root1 : σ)
    (res : PrimResult Pair Size) (err : GoError)
    (hparent : c.FindByCreatedAt s.root s.op.parentCreatedAt = Element.tree obj)
    (hlen : s.op.attributes.len = 0)
    (hprim : c.RemoveStyle s.root obj s.op.from_ s.op.to_ s.op.attributesToRemove
      s.op.executedAt vv = (root1, res))
    (herr : res.err = some err) :
    TreeStyle.Execute c s vv =
      ({ op := s.op, root := root1
         calls := s.calls ++ [Call.FindByCreatedAt s.op.parentCreatedAt,
           Call.RemoveStyle obj s.op.from_ s.op.to_ s.op.attributesToRemove
             s.op.executedAt vv] },
        some err) := by
  unfold TreeStyle.Execute
  simp [callFindByCreatedAt, callRemoveStyle, hparent, hlen, hprim, herr]

theorem Execute_remove_ok (c : Collaborators σ Tree Pos Pair Size VV)
    (s : State σ Tree Pos Pair Size VV) (vv : VV) (obj : Tree) (root1 : σ)
    (res : PrimResult Pair Size)
    (hparent : c.FindByCreatedAt s.root s.op.parentCreatedAt = Element.tree obj)
    (hlen : s.op.attributes.len = 0)
    (hprim : c.RemoveStyle s.root obj s.op.from_ s.op.to_ s.op.attributesToRemove
      s.op.executedAt vv = (root1, res))
    (herr : res.err = none) :
    TreeStyle.Execute c s vv =
      ({ op := s.op
         root := c.Acc (foldPairs c res.pairs root1 res.diff).1
           (foldPairs c res.pairs root1 res.diff).2
         calls := s.calls ++ (Call.FindByCreatedAt s.op.parentCreatedAt ::
           Call.RemoveStyle obj s.op.from_ s.op.to_ s.op.attributesToRemove
             s.op.executedAt vv ::
           (pairCalls c res.pairs root1 res.diff ++
             [Call.Acc (foldPairs c res.pairs root1 res.diff).2])) },
        none) := by
  unfold TreeStyle.Execute
  simp [callFindByCreatedAt, callRemoveStyle, hparent, hlen, hprim, herr, bookkeep_eq]

theorem pairCalls_registered (c : Collaborators σ Tree Pos Pair Size VV) (pairs : List Pair) :
    ∀ (root : σ) (diff : Size),
      (pairCalls c pairs root diff).filterMap Call.registered = pairs := by
  induction pairs with
  | nil => intro root diff; simp [pairCalls]
  | cons pair rest ih => intro root diff; simp [pairCalls, Call.registered, ih]

theorem pairCalls_accumulated (c : Collaborators σ Tree Pos Pair Size VV)
    (pairs : List Pair) :
    ∀ (root : σ) (diff : Size),
      (pairCalls c pairs root diff).filterMap Call.accumulated = [] := by
  induction pairs with
  | nil => intro root diff; simp [pairCalls]
  | cons pair rest ih => intro root diff; simp [pairCalls, Call.accumulated, ih]

theorem pairCalls_count (c : Collaborators σ Tree Pos Pair Size VV) (pairs : List Pair) :
    ∀ (root : σ) (diff : Size),
      (pairCalls c pairs root diff).countP Call.isRegisterGCPair = pairs.length ∧
      (pairCalls c pairs root diff).countP Call.isAdjustDiffForGCPair = pairs.length ∧
      (pairCalls c pairs root diff).countP Call.isStyle = 0 ∧
      (pairCalls c pairs root diff).countP Call.isRemoveStyle = 0 ∧
      (pairCalls c pairs root diff).countP Call.isAcc = 0 := by
  induction pairs with
  | nil => intro root diff; simp [pairCalls]
  | cons pair rest ih =>
    intro root diff
    obtain ⟨h1, h2, h3, h4, h5⟩ := ih
      (c.AdjustDiffForGCPair (c.RegisterGCPair root pair) diff pair).1
      (c.AdjustDiffForGCPair (c.RegisterGCPair root pair) diff pair).2
    simp [pairCalls, List.countP_cons, Call.isRegisterGCPair, Call.isAdjustDiffForGCPair,
      Call.isStyle, Call.isRemoveStyle, Call.isAcc, h1, h2, h3, h4, h5]

theorem pairCalls_order (c : Collaborators σ Tree Pos Pair Size VV) (pairs : List Pair) :
    ∀ (root : σ) (diff : Size) (i : Nat) (pair : Pair), pairs[i]? = some pair →
      (pairCalls c pairs root diff)[2 * i]? = some (Call.RegisterGCPair pair) ∧
      ∃ d, (pairCalls c pairs root diff)[2 * i + 1]? =
        some (Call.AdjustDiffForGCPair d pair) := by
  induction pairs with
  | nil => intro root diff i pair h; simp at h
  | cons p rest ih =>
    intro root diff i pair h
    cases i with
    | zero =>
      simp at h
      subst h
      exact ⟨by simp [pairCalls], diff, by simp [pairCalls]⟩
    | succ j =>
      simp at h
      have hj := ih (c.AdjustDiffForGCPair (c.RegisterGCPair root p) diff p).1
        (c.AdjustDiffForGCPair (c.RegisterGCPair root p) diff p).2 j pair h
      have e1 : 2 * (j + 1) = (2 * j) + 1 + 1 := by ring
      rw [e1]
      simpa [pairCalls] using hj

theorem madeCalls_of_eq (c : Collaborators σ Tree Pos Pair Size VV)
    (s : State σ Tree Pos Pair Size VV) (vv : VV) (r : State σ Tree Pos Pair Size VV)
    (e : Option GoError) (made : List (Call Tree Pos Pair Size VV))
    (h : TreeStyle.Execute c s vv = (r, e)) (hr : r.calls = s.calls ++ made) :
    TreeStyle.madeCalls c s vv = made := by
  unfold TreeStyle.madeCalls
  rw [h]
  simp [hr]

theorem pairCalls_no_primitive (c : Collaborators σ Tree Pos Pair Size VV)
    (pairs : List Pair) :
    ∀ (root : σ) (diff : Size),
      (pairCalls c pairs root diff).filter (fun k => k.isStyle || k.isRemoveStyle) = [] := by
  induction pairs with
  | nil => intro root diff; simp [pairCalls]
  | cons pair rest ih =>
    intro root diff
    rw [pairCalls, List.filter_cons_of_neg (by simp [Call.isStyle, Call.isRemoveStyle]),
      List.filter_cons_of_neg (by simp [Call.isStyle, Call.isRemoveStyle]), ih]

theorem Execute_op_eq (c : Collaborators σ Tree Pos Pair Size VV)
    (s : State σ Tree Pos Pair Size VV) (vv : VV) :
    (TreeStyle.Execute c s vv).1.op = s.op := by
  cases hf : c.FindByCreatedAt s.root s.op.parentCreatedAt with
  | nil =>
    rw [Execute_not_tree c s vv (by intro obj h; rw [hf] at h; cases h)]
  | other =>
    rw [Execute_not_tree c s vv (by intro obj h; rw [hf] at h; cases h)]
  | tree obj =>
    rcases Nat.eq_zero_or_pos s.op.attributes.len with hlen | hlen
    · cases herr : (c.RemoveStyle s.root obj s.op.from_ s.op.to_ s.op.attributesToRemove
        s.op.executedAt vv).2.err with
      | none => rw [Execute_remove_ok c s vv obj _ _ hf hlen rfl herr]
      | some err => rw [Execute_remove_err c s vv obj _ _ err hf hlen rfl herr]
    · cases herr : (c.Style s.root obj s.op.from_ s.op.to_ s.op.attributes
        s.op.executedAt vv).2.err with
      | none => rw [Execute_style_ok c s vv obj _ _ hf hlen rfl herr]
      | some err => rw [Execute_style_err c s vv obj _ _ err hf hlen rfl herr]

theorem madeCalls_style (c : Collaborators σ Tree Pos Pair Size VV)
    (s : State σ Tree Pos Pair Size VV) (vv : VV) (obj : Tree)
    (hparent : c.FindByCreatedAt s.root s.op.parentCreatedAt = Element.tree obj)
    (hlen : 0 < s.op.attributes.len) :
    ∃ rest, TreeStyle.madeCalls c s vv = Call.FindByCreatedAt s.op.parentCreatedAt ::
        Call.Style obj s.op.from_ s.op.to_ s.op.attributes s.op.executedAt vv :: rest ∧
      rest.filter (fun k => k.isStyle || k.isRemoveStyle) = [] := by
  cases herr : (c.Style s.root obj s.op.from_ s.op.to_ s.op.attributes
      s.op.executedAt vv).2.err with
  | none =>
    have hE := Execute_style_ok c s vv obj _ _ hparent hlen rfl herr
    exact ⟨_, madeCalls_of_eq c s vv _ _ _ hE rfl, by
      rw [List.filter_append, pairCalls_no_primitive]; rfl⟩
  | some err =>
    have hE := Execute_style_err c s vv obj _ _ err hparent hlen rfl herr
    exact ⟨[], madeCalls_of_eq c s vv _ _ _ hE rfl, by simp⟩

theorem madeCalls_remove (c : Collaborators σ Tree Pos Pair Size VV)
    (s : State σ Tree Pos Pair Size VV) (vv : VV) (obj : Tree)
    (hparent : c.FindByCreatedAt s.root s.op.parentCreatedAt = Element.tree obj)
    (hlen : s.op.attributes.len = 0) :
    ∃ rest, TreeStyle.madeCalls c s vv = Call.FindByCreatedAt s.op.parentCreatedAt ::
        Call.RemoveStyle obj s.op.from_ s.op.to_ s.op.attributesToRemove s.op.executedAt vv ::
          rest ∧
      rest.filter (fun k => k.isStyle || k.isRemoveStyle) = [] := by
  cases herr : (c.RemoveStyle s.root obj s.op.from_ s.op.to_ s.op.attributesToRemove
      s.op.executedAt vv).2.err with
  | none =>
    have hE := Execute_remove_ok c s vv obj _ _ hparent hlen rfl herr
    exact ⟨_, madeCalls_of_eq c s vv _ _ _ hE rfl, by
      rw [List.filter_append, pairCalls_no_primitive]; rfl⟩
  | some err =>
    have hE := Execute_remove_err c s vv obj _ _ err hparent hlen rfl herr
    exact ⟨[], madeCalls_of_eq c s vv _ _ _ hE rfl, by simp⟩

theorem no_primitive_counts (rest : List (Call Tree Pos Pair Size VV))
    (h : rest.filter (fun k => k.isStyle || k.isRemoveStyle) = []) :
    rest.countP Call.isStyle = 0 ∧ rest.countP Call.isRemoveStyle = 0 ∧
    rest.any Call.isStyle = false ∧ rest.any Call.isRemoveStyle = false := by
  rw [List.filter_eq_nil_iff] at h
  refine ⟨?_, ?_, ?_, ?_⟩
  · rw [List.countP_eq_zero]
    intro k hk hs
    exact h k hk (by simp [hs])
  · rw [List.countP_eq_zero]
    intro k hk hs
    exact h k hk (by simp [hs])
  · rw [List.any_eq_false]
    intro k hk hs
    exact h k hk (by simp [hs])
  · rw [List.any_eq_false]
    intro k hk hs
    exact h k hk (by simp [hs])

theorem SetActor_containers (e : TreeStyle Pos) (actorID : ActorID) :
    (e.SetActor actorID).attributes = e.attributes ∧
    (e.SetActor actorID).attributesToRemove = e.attributesToRemove := by
  simp [TreeStyle.SetActor]

theorem step_containers (c : Collaborators σ Tree Pos Pair Size VV)
    (s : State σ Tree Pos Pair Size VV) (a : Action VV) :
    (step c s a).op.attributes = s.op.attributes ∧
    (step c s a).op.attributesToRemove = s.op.attributesToRemove := by
  cases a with
  | execute vv => simp [step, Execute_op_eq]
  | setActor actorID => simp [step, SetActor_containers]

theorem run_containers (c : Collaborators σ Tree Pos Pair Size VV)
    (actions : List (Action VV)) :
    ∀ (s : State σ Tree Pos Pair Size VV),
      (run c s actions).op.attributes = s.op.attributes ∧
      (run c s actions).op.attributesToRemove = s.op.attributesToRemove := by
  induction actions with
  | nil => intro s; simp [run]
  | cons a rest ih =>
    intro s
    have h1 := ih (step c s a)
    have h2 := step_containers c s a
    simp only [run, List.foldl_cons] at h1 ⊢
    exact ⟨h1.1.trans h2.1, h1.2.trans h2.2⟩

end Lemmas

section Claims
variable {σ Tree Pos Pair Size VV : Type}

/-- C1 (type-check gate): when `FindByCreatedAt(parentCreatedAt)` gives no `*crdt.Tree`
(another element, or nothing), `Execute` returns `ErrNotApplicableDataType`, the root is
what it was, and the only call made is the lookup: no `Style`, `RemoveStyle`,
`RegisterGCPair`, `AdjustDiffForGCPair` or `Acc`. This holds for every operation, those
of both constructors included. -/
theorem Execute_type_check_gate (c : Collaborators σ Tree Pos Pair Size VV)
    (s : State σ Tree Pos Pair Size VV) (vv : VV)
    (h : ∀ obj, c.FindByCreatedAt s.root s.op.parentCreatedAt ≠ Element.tree obj) :
    (TreeStyle.Execute c s vv).2 = some GoError.ErrNotApplicableDataType ∧
    (TreeStyle.Execute c s vv).1.root = s.root ∧
    TreeStyle.madeCalls c s vv = [Call.FindByCreatedAt s.op.parentCreatedAt] ∧
    (TreeStyle.madeCalls c s vv).countP Call.isStyle = 0 ∧
    (TreeStyle.madeCalls c s vv).countP Call.isRemoveStyle = 0 ∧
    (TreeStyle.madeCalls c s vv).countP Call.isRegisterGCPair = 0 ∧
    (TreeStyle.madeCalls c s vv).countP Call.isAdjustDiffForGCPair = 0 ∧
    (TreeStyle.madeCalls c s vv).countP Call.isAcc = 0 := by
  have hE := Execute_not_tree c s vv h
  have hM := madeCalls_of_eq c s vv _ _ [Call.FindByCreatedAt s.op.parentCreatedAt] hE rfl
  rw [hM, hE]
  simp [Call.isStyle, Call.isRemoveStyle, Call.isRegisterGCPair,
    Call.isAdjustDiffForGCPair, Call.isAcc]

/-- C2 (atomicity on a primitive error): when the parent is a tree and the primitive
`Execute` dispatches to (`Style` for non-empty attributes, `RemoveStyle` otherwise)
returns the error `err` with whatever pairs and diff, `Execute` returns that `err`, the
root is as the primitive left it, and no `RegisterGCPair`, `AdjustDiffForGCPair` or
`Acc` call is made. -/
theorem Execute_primitive_error (c : Collaborators σ Tree Pos Pair Size VV)
    (s : State σ Tree Pos Pair Size VV) (vv : VV) (obj : Tree) (root1 : σ)
    (res : PrimResult Pair Size) (err : GoError)
    (hparent : c.FindByCreatedAt s.root s.op.parentCreatedAt = Element.tree obj)
    (hprim :
      (0 < s.op.attributes.len ∧
        c.Style s.root obj s.op.from_ s.op.to_ s.op.attributes s.op.executedAt vv =
          (root1, res)) ∨
      (s.op.attributes.len = 0 ∧
        c.RemoveStyle s.root obj s.op.from_ s.op.to_ s.op.attributesToRemove
          s.op.executedAt vv = (root1, res)))
    (herr : res.err = some err) :
    (TreeStyle.Execute c s vv).2 = some err ∧
    (TreeStyle.Execute c s vv).1.root = root1 ∧
    (TreeStyle.madeCalls c s vv).countP Call.isRegisterGCPair = 0 ∧
    (TreeStyle.madeCalls c s vv).countP Call.isAdjustDiffForGCPair = 0 ∧
    (TreeStyle.madeCalls c s vv).countP Call.isAcc = 0 := by
  rcases hprim with ⟨hlen, hp⟩ | ⟨hlen, hp⟩
  · have hE := Execute_style_err c s vv obj root1 res err hparent hlen hp herr
    have hM := madeCalls_of_eq c s vv _ _ _ hE rfl
    rw [hM, hE]
    simp [Call.isRegisterGCPair, Call.isAdjustDiffForGCPair, Call.isAcc]
  · have hE := Execute_remove_err c s vv obj root1 res err hparent hlen hp herr
    have hM := madeCalls_of_eq c s vv _ _ _ hE rfl
    rw [hM, hE]
    simp [Call.isRegisterGCPair, Call.isAdjustDiffForGCPair, Call.isAcc]

/-- C3 (accounting conservation): when the parent is a tree and the primitive `Execute`
dispatches to returns `(pairs, diff, nil)`, `Execute` returns nil; after the lookup and
the primitive call come, for each pair in the returned order, `RegisterGCPair` of it and
then `AdjustDiffForGCPair` of the running diff and it, then one `Acc` call with the
diff folded over all pairs. So the registered pairs are exactly `pairs`, there are
`len(pairs)` registrations and adjustments, the pair at index `i` is registered just
before the diff is adjusted for it, `Acc` is called once, and with no pairs `Acc` gets
the primitive's diff. -/
theorem Execute_accounting (c : Collaborators σ Tree Pos Pair Size VV)
    (s : State σ Tree Pos Pair Size VV) (vv : VV) (obj : Tree) (root1 : σ)
    (res : PrimResult Pair Size)
    (hparent : c.FindByCreatedAt s.root s.op.parentCreatedAt = Element.tree obj)
    (hprim :
      (0 < s.op.attributes.len ∧
        c.Style s.root obj s.op.from_ s.op.to_ s.op.attributes s.op.executedAt vv =
          (root1, res)) ∨
      (s.op.attributes.len = 0 ∧
        c.RemoveStyle s.root obj s.op.from_ s.op.to_ s.op.attributesToRemove
          s.op.executedAt vv = (root1, res)))
    (herr : res.err = none) :
    (TreeStyle.Execute c s vv).2 = none ∧
    (TreeStyle.Execute c s vv).1.root =
      c.Acc (foldPairs c res.pairs root1 res.diff).1 (foldPairs c res.pairs root1 res.diff).2 ∧
    (TreeStyle.madeCalls c s vv).drop 2 =
      pairCalls c res.pairs root1 res.diff ++
        [Call.Acc (foldPairs c res.pairs root1 res.diff).2] ∧
    (TreeStyle.madeCalls c s vv).filterMap Call.registered = res.pairs ∧
    (TreeStyle.madeCalls c s vv).countP Call.isRegisterGCPair = res.pairs.length ∧
    (TreeStyle.madeCalls c s vv).countP Call.isAdjustDiffForGCPair = res.pairs.length ∧
    (∀ (i : Nat) (pair : Pair), res.pairs[i]? = some pair →
      (TreeStyle.madeCalls c s vv)[2 + 2 * i]? = some (Call.RegisterGCPair pair) ∧
      ∃ d, (TreeStyle.madeCalls c s vv)[2 + 2 * i + 1]? =
        some (Call.AdjustDiffForGCPair d pair)) ∧
    (TreeStyle.madeCalls c s vv).filterMap Call.accumulated =
      [(foldPairs c res.pairs root1 res.diff).2] ∧
    (TreeStyle.madeCalls c s vv).getLast? =
      some (Call.Acc (foldPairs c res.pairs root1 res.diff).2) ∧
    (res.pairs = [] → (TreeStyle.madeCalls c s vv).filterMap Call.accumulated = [res.diff]) := by
  have hcount := pairCalls_count c res.pairs root1 res.diff
  have hreg := pairCalls_registered c res.pairs root1 res.diff
  have hacc := pairCalls_accumulated c res.pairs root1 res.diff
  have hord := pairCalls_order c res.pairs root1 res.diff
  obtain ⟨h1, h2, -, -, -⟩ := hcount
  have key : ∀ (prim : Call Tree Pos Pair Size VV),
      prim.registered = none → prim.accumulated = none →
      prim.isRegisterGCPair = false → prim.isAdjustDiffForGCPair = false →
      ∀ made, made = Call.FindByCreatedAt s.op.parentCreatedAt :: prim ::
          (pairCalls c res.pairs root1 res.diff ++
            [Call.Acc (foldPairs c res.pairs root1 res.diff).2]) →
        made.drop 2 = pairCalls c res.pairs root1 res.diff ++
          [Call.Acc (foldPairs c res.pairs root1 res.diff).2] ∧
        made.filterMap Call.registered = res.pairs ∧
        made.countP Call.isRegisterGCPair = res.pairs.length ∧
        made.countP Call.isAdjustDiffForGCPair = res.pairs.length ∧
        (∀ (i : Nat) (pair : Pair), res.pairs[i]? = some pair →
          made[2 + 2 * i]? = some (Call.RegisterGCPair pair) ∧
          ∃ d, made[2 + 2 * i + 1]? = some (Call.AdjustDiffForGCPair d pair)) ∧
        made.filterMap Call.accumulated = [(foldPairs c res.pairs root1 res.diff).2] ∧
        made.getLast? = some (Call.Acc (foldPairs c res.pairs root1 res.diff).2) ∧
        (res.pairs = [] → made.filterMap Call.accumulated = [res.diff]) := by
    intro prim p1 p2 p3 p4 made hmade
    subst hmade
    refine ⟨by simp, ?_, ?_, ?_, ?_, ?_, ?_, ?_⟩
    · simp only [List.filterMap_cons, p1]
      simp [Call.registered, hreg]
    · simp only [List.countP_cons, p3]
      simp [Call.isRegisterGCPair, h1]
    · simp only [List.countP_cons, p4]
      simp [Call.isAdjustDiffForGCPair, h2]
    · intro i pair hi
      obtain ⟨a, d, b⟩ := hord i pair hi
      have hlt : 2 * i + 1 < (pairCalls c res.pairs root1 res.diff).length := by
        rcases Nat.lt_or_ge (2 * i + 1) (pairCalls c res.pairs root1 res.diff).length with
          h | h
        · exact h
        · rw [List.getElem?_eq_none h] at b; cases b
      have e1 : 2 + 2 * i = (2 * i) + 1 + 1 := by ring
      have e2 : 2 + 2 * i + 1 = (2 * i + 1) + 1 + 1 := by ring
      refine ⟨?_, d, ?_⟩
      · rw [e1, List.getElem?_cons_succ, List.getElem?_cons_succ,
          List.getElem?_append_left (by omega)]
        exact a
      · rw [e2, List.getElem?_cons_succ, List.getElem?_cons_succ,
          List.getElem?_append_left hlt]
        exact b
    · simp only [List.filterMap_cons, p2]
      simp [Call.accumulated, hacc]
    · rw [List.getLast?_cons_cons, ← List.cons_append, List.getLast?_concat]
    · intro hnil
      simp only [List.filterMap_cons, p2]
      simp [Call.accumulated, hnil, pairCalls, foldPairs]
  rcases hprim with ⟨hlen, hp⟩ | ⟨hlen, hp⟩
  · have hE := Execute_style_ok c s vv obj root1 res hparent hlen hp herr
    have hM := madeCalls_of_eq c s vv _ _ _ hE rfl
    refine ⟨by rw [hE], by rw [hE], ?_⟩
    exact key (Call.Style obj s.op.from_ s.op.to_ s.op.attributes s.op.executedAt vv)
      rfl rfl rfl rfl _ hM
  · have hE := Execute_remove_ok c s vv obj root1 res hparent hlen hp herr
    have hM := madeCalls_of_eq c s vv _ _ _ hE rfl
    refine ⟨by rw [hE], by rw [hE], ?_⟩
    exact key
      (Call.RemoveStyle obj s.op.from_ s.op.to_ s.op.attributesToRemove s.op.executedAt vv)
      rfl rfl rfl rfl _ hM

/-- C4 (dispatch): when the parent is a tree `obj`, `Execute` invokes exactly one
primitive, once, on `obj`. With a non-empty attributes map it is
`Style(from, to, attributes, executedAt, versionVector)` and `RemoveStyle` is never
called; otherwise it is `RemoveStyle(from, to, attributesToRemove, executedAt,
versionVector)` and `Style` is never called. The call is really made: the root that
primitive leaves and the pairs, diff and error it returns decide what `Execute` gives
back, the error with the primitive's root on failure, and nil with the bookkeeping of
the primitive's pairs and diff on the primitive's root on success. -/
theorem Execute_dispatch (c : Collaborators σ Tree Pos Pair Size VV)
    (s : State σ Tree Pos Pair Size VV) (vv : VV) (obj : Tree)
    (hparent : c.FindByCreatedAt s.root s.op.parentCreatedAt = Element.tree obj) :
    (0 < s.op.attributes.len →
      (TreeStyle.madeCalls c s vv).take 2 = [Call.FindByCreatedAt s.op.parentCreatedAt,
        Call.Style obj s.op.from_ s.op.to_ s.op.attributes s.op.executedAt vv] ∧
      (TreeStyle.madeCalls c s vv).filter (fun k => k.isStyle || k.isRemoveStyle) =
        [Call.Style obj s.op.from_ s.op.to_ s.op.attributes s.op.executedAt vv] ∧
      (TreeStyle.madeCalls c s vv).countP Call.isStyle = 1 ∧
      (TreeStyle.madeCalls c s vv).countP Call.isRemoveStyle = 0 ∧
      (∀ (root1 : σ) (res : PrimResult Pair Size),
        c.Style s.root obj s.op.from_ s.op.to_ s.op.attributes s.op.executedAt vv =
          (root1, res) →
        (∀ err, res.err = some err →
          TreeStyle.Execute c s vv =
            ({ op := s.op, root := root1
               calls := s.calls ++ [Call.FindByCreatedAt s.op.parentCreatedAt,
                 Call.Style obj s.op.from_ s.op.to_ s.op.attributes s.op.executedAt vv] },
              some err)) ∧
        (res.err = none →
          TreeStyle.Execute c s vv =
            ({ op := s.op
               root := c.Acc (foldPairs c res.pairs root1 res.diff).1
                 (foldPairs c res.pairs root1 res.diff).2
               calls := s.calls ++ (Call.FindByCreatedAt s.op.parentCreatedAt ::
                 Call.Style obj s.op.from_ s.op.to_ s.op.attributes s.op.executedAt vv ::
                 (pairCalls c res.pairs root1 res.diff ++
                   [Call.Acc (foldPairs c res.pairs root1 res.diff).2])) },
              none)))) ∧
    (s.op.attributes.len = 0 →
      (TreeStyle.madeCalls c s vv).take 2 = [Call.FindByCreatedAt s.op.parentCreatedAt,
        Call.RemoveStyle obj s.op.from_ s.op.to_ s.op.attributesToRemove s.op.executedAt vv] ∧
      (TreeStyle.madeCalls c s vv).filter (fun k => k.isStyle || k.isRemoveStyle) =
        [Call.RemoveStyle obj s.op.from_ s.op.to_ s.op.attributesToRemove s.op.executedAt vv] ∧
      (TreeStyle.madeCalls c s vv).countP Call.isRemoveStyle = 1 ∧
      (TreeStyle.madeCalls c s vv).countP Call.isStyle = 0 ∧
      (∀ (root1 : σ) (res : PrimResult Pair Size),
        c.RemoveStyle s.root obj s.op.from_ s.op.to_ s.op.attributesToRemove
          s.op.executedAt vv = (root1, res) →
        (∀ err, res.err = some err →
          TreeStyle.Execute c s vv =
            ({ op := s.op, root := root1
               calls := s.calls ++ [Call.FindByCreatedAt s.op.parentCreatedAt,
                 Call.RemoveStyle obj s.op.from_ s.op.to_ s.op.attributesToRemove
                   s.op.executedAt vv] },
              some err)) ∧
        (res.err = none →
          TreeStyle.Execute c s vv =
            ({ op := s.op
               root := c.Acc (foldPairs c res.pairs root1 res.diff).1
                 (foldPairs c res.pairs root1 res.diff).2
               calls := s.calls ++ (Call.FindByCreatedAt s.op.parentCreatedAt ::
                 Call.RemoveStyle obj s.op.from_ s.op.to_ s.op.attributesToRemove
                   s.op.executedAt vv ::
                 (pairCalls c res.pairs root1 res.diff ++
                   [Call.Acc (foldPairs c res.pairs root1 res.diff).2])) },
              none)))) := by
  constructor
  · intro hlen
    obtain ⟨rest, hM, hrest⟩ := madeCalls_style c s vv obj hparent hlen
    obtain ⟨h1, h2, -, -⟩ := no_primitive_counts rest hrest
    rw [hM]
    refine ⟨by simp, ?_, ?_, ?_, ?_⟩
    · rw [List.filter_cons_of_neg (by simp [Call.isStyle, Call.isRemoveStyle]),
        List.filter_cons_of_pos (by simp [Call.isStyle, Call.isRemoveStyle]), hrest]
    · simp [List.countP_cons, Call.isStyle, h1]
    · simp [List.countP_cons, Call.isRemoveStyle, h2]
    · intro root1 res hp
      exact ⟨fun err herr => Execute_style_err c s vv obj root1 res err hparent hlen hp herr,
        fun herr => Execute_style_ok c s vv obj root1 res hparent hlen hp herr⟩
  · intro hlen
    obtain ⟨rest, hM, hrest⟩ := madeCalls_remove c s vv obj hparent hlen
    obtain ⟨h1, h2, -, -⟩ := no_primitive_counts rest hrest
    rw [hM]
    refine ⟨by simp, ?_, ?_, ?_, ?_⟩
    · rw [List.filter_cons_of_neg (by simp [Call.isStyle, Call.isRemoveStyle]),
        List.filter_cons_of_pos (by simp [Call.isStyle, Call.isRemoveStyle]), hrest]
    · simp [List.countP_cons, Call.isRemoveStyle, h2]
    · simp [List.countP_cons, Call.isStyle, h1]
    · intro root1 res hp
      exact ⟨fun err herr => Execute_remove_err c s vv obj root1 res err hparent hlen hp herr,
        fun herr => Execute_remove_ok c s vv obj root1 res hparent hlen hp herr⟩

/-- C5, the claim as stated fails: the style-add built by `NewTreeStyle` from an empty
attributes map has no non-empty container, so not exactly one. -/
theorem mutual_exclusivity_counterexample :
    ¬ ((0 < demoEmptyAdd.attributes.len ∧ ¬ 0 < demoEmptyAdd.attributesToRemove.len) ∨
       (¬ 0 < demoEmptyAdd.attributes.len ∧ 0 < demoEmptyAdd.attributesToRemove.len)) := by
  decide

/-- C5, amended: for every operation of `NewTreeStyle` or `NewTreeStyleRemove` the
container the constructor creates itself is empty, so the two are never both non-empty,
and exactly one of them is non-empty if and only if the container the caller passed is
non-empty. -/
theorem constructors_at_most_one (p : Ticket) (f t : Pos) (attrs : GoMap) (keys : GoSlice)
    (ex : Ticket) :
    (NewTreeStyle p f t attrs ex).attributesToRemove.len = 0 ∧
    (NewTreeStyleRemove p f t keys ex).attributes.len = 0 ∧
    ¬ (0 < (NewTreeStyle p f t attrs ex).attributes.len ∧
        0 < (NewTreeStyle p f t attrs ex).attributesToRemove.len) ∧
    ¬ (0 < (NewTreeStyleRemove p f t keys ex).attributes.len ∧
        0 < (NewTreeStyleRemove p f t keys ex).attributesToRemove.len) ∧
    (((0 < (NewTreeStyle p f t attrs ex).attributes.len ∧
          ¬ 0 < (NewTreeStyle p f t attrs ex).attributesToRemove.len) ∨
        (¬ 0 < (NewTreeStyle p f t attrs ex).attributes.len ∧
          0 < (NewTreeStyle p f t attrs ex).attributesToRemove.len)) ↔
      0 < attrs.len) ∧
    (((0 < (NewTreeStyleRemove p f t keys ex).attributes.len ∧
          ¬ 0 < (NewTreeStyleRemove p f t keys ex).attributesToRemove.len) ∨
        (¬ 0 < (NewTreeStyleRemove p f t keys ex).attributes.len ∧
          0 < (NewTreeStyleRemove p f t keys ex).attributesToRemove.len)) ↔
      0 < keys.len) := by
  simp [NewTreeStyle, NewTreeStyleRemove, GoMap.len, GoSlice.len]

/-- C6 (no operation carries both payloads): take an operation of `NewTreeStyle` or
`NewTreeStyleRemove` and run any sequence of `Execute` and `SetActor` calls on it, from
any root and with any collaborators. Its two containers are then still the ones it was
built with: `attributes` and `attributesToRemove` are not both non-empty, and the
container the constructor did not get from the caller is the empty non-nil one
(`attributesToRemove` for `NewTreeStyle`, `attributes` for `NewTreeStyleRemove`). -/
theorem no_operation_carries_both (c : Collaborators σ Tree Pos Pair Size VV) (root : σ)
    (calls : List (Call Tree Pos Pair Size VV)) (actions : List (Action VV))
    (p : Ticket) (f t : Pos) (attrs : GoMap) (keys : GoSlice) (ex : Ticket) :
    (¬ (0 < (run c ⟨NewTreeStyle p f t attrs ex, root, calls⟩ actions).op.attributes.len ∧
        0 < (run c ⟨NewTreeStyle p f t attrs ex, root, calls⟩
          actions).op.attributesToRemove.len) ∧
      (run c ⟨NewTreeStyle p f t attrs ex, root, calls⟩ actions).op.attributesToRemove =
        some [] ∧
      (run c ⟨NewTreeStyle p f t attrs ex, root, calls⟩ actions).op.attributes = attrs) ∧
    (¬ (0 < (run c ⟨NewTreeStyleRemove p f t keys ex, root, calls⟩
          actions).op.attributes.len ∧
        0 < (run c ⟨NewTreeStyleRemove p f t keys ex, root, calls⟩
          actions).op.attributesToRemove.len) ∧
      (run c ⟨NewTreeStyleRemove p f t keys ex, root, calls⟩ actions).op.attributes =
        some [] ∧
      (run c ⟨NewTreeStyleRemove p f t keys ex, root, calls⟩
        actions).op.attributesToRemove = keys) := by
  obtain ⟨a1, a2⟩ := run_containers c actions ⟨NewTreeStyle p f t attrs ex, root, calls⟩
  obtain ⟨b1, b2⟩ := run_containers c actions ⟨NewTreeStyleRemove p f t keys ex, root, calls⟩
  rw [a1, a2, b1, b2]
  simp [NewTreeStyle, NewTreeStyleRemove, GoMap.len, GoSlice.len]

/-- C7 (SetActor frame): after `SetActor(actorID)` the operation's `executedAt` is the
old one with its actor replaced by `actorID`, its logical clock and tie-break sequence
unchanged, and `parentCreatedAt`, `from`, `to`, `attributes` and `attributesToRemove`
are what they were. -/
theorem SetActor_frame (e : TreeStyle Pos) (actorID : ActorID) :
    (e.SetActor actorID).executedAt.actorID = actorID ∧
    (e.SetActor actorID).executedAt.logicalClock = e.executedAt.logicalClock ∧
    (e.SetActor actorID).executedAt.tieBreakSeq = e.executedAt.tieBreakSeq ∧
    (e.SetActor actorID).parentCreatedAt = e.parentCreatedAt ∧
    (e.SetActor actorID).from_ = e.from_ ∧
    (e.SetActor actorID).to_ = e.to_ ∧
    (e.SetActor actorID).attributes = e.attributes ∧
    (e.SetActor actorID).attributesToRemove = e.attributesToRemove := by
  simp [TreeStyle.SetActor, Ticket.SetActorID]

/-- C8 (accessors return what was constructed): on `NewTreeStyle(p, f, t, attrs, ex)`
the accessors return `p`, `f`, `t`, `attrs`, `ex` and an empty `AttributesToRemove()`;
on `NewTreeStyleRemove(p, f, t, keys, ex)` they return `p`, `f`, `t`, `keys`, `ex` and
an empty `Attributes()`; each accessor, on any operation, leaves the operation as it
was. With `attrs = {"bold":"true"}`, `Attributes()` is `{"bold":"true"}` and
`AttributesToRemove()` is empty. -/
theorem accessors_return_constructed (p : Ticket) (f t : Pos) (attrs : GoMap)
    (keys : GoSlice) (ex : Ticket) :
    ((NewTreeStyle p f t attrs ex).ParentCreatedAt.2 = p ∧
      (NewTreeStyle p f t attrs ex).FromPos.2 = f ∧
      (NewTreeStyle p f t attrs ex).ToPos.2 = t ∧
      (NewTreeStyle p f t attrs ex).Attributes.2 = attrs ∧
      (NewTreeStyle p f t attrs ex).ExecutedAt.2 = ex ∧
      (NewTreeStyle p f t attrs ex).AttributesToRemove.2 = some [] ∧
      GoSlice.len (NewTreeStyle p f t attrs ex).AttributesToRemove.2 = 0) ∧
    ((NewTreeStyleRemove p f t keys ex).ParentCreatedAt.2 = p ∧
      (NewTreeStyleRemove p f t keys ex).FromPos.2 = f ∧
      (NewTreeStyleRemove p f t keys ex).ToPos.2 = t ∧
      (NewTreeStyleRemove p f t keys ex).AttributesToRemove.2 = keys ∧
      (NewTreeStyleRemove p f t keys ex).ExecutedAt.2 = ex ∧
      (NewTreeStyleRemove p f t keys ex).Attributes.2 = some [] ∧
      GoMap.len (NewTreeStyleRemove p f t keys ex).Attributes.2 = 0) ∧
    (∀ e : TreeStyle Pos,
      e.ParentCreatedAt.1 = e ∧ e.FromPos.1 = e ∧ e.ToPos.1 = e ∧ e.Attributes.1 = e ∧
      e.AttributesToRemove.1 = e ∧ e.ExecutedAt.1 = e) ∧
    ((NewTreeStyle p f t (some [("bold", "true")]) ex).Attributes.2 =
        some [("bold", "true")] ∧
      GoSlice.len (NewTreeStyle p f t (some [("bold", "true")]) ex).AttributesToRemove.2 =
        0) := by
  refine ⟨?_, ?_, ?_, ?_⟩
  · simp [NewTreeStyle, TreeStyle.ParentCreatedAt, TreeStyle.FromPos, TreeStyle.ToPos,
      TreeStyle.Attributes, TreeStyle.ExecutedAt, TreeStyle.AttributesToRemove, GoSlice.len]
  · simp [NewTreeStyleRemove, TreeStyle.ParentCreatedAt, TreeStyle.FromPos, TreeStyle.ToPos,
      TreeStyle.Attributes, TreeStyle.ExecutedAt, TreeStyle.AttributesToRemove, GoMap.len]
  · intro e
    simp [TreeStyle.ParentCreatedAt, TreeStyle.FromPos, TreeStyle.ToPos,
      TreeStyle.Attributes, TreeStyle.ExecutedAt, TreeStyle.AttributesToRemove]
  · simp [NewTreeStyle, TreeStyle.Attributes, TreeStyle.AttributesToRemove, GoSlice.len]

/-- C9 (an empty style-add falls through to remove): for an operation of `NewTreeStyle`
with an empty or nil attributes map and a tree parent `obj`, `Execute` never calls
`Style`; its one primitive call is `RemoveStyle(from, to, the empty key list,
executedAt, versionVector)` on `obj`; when that returns `(pairs, diff, nil)` the usual
registration and accumulation follow, and when it returns an error `Execute` returns
it. For every operation with a tree parent, `Style` is called exactly when `attributes`
is non-empty and `RemoveStyle` exactly when it is empty, whatever `attributesToRemove`
holds and whichever constructor built the operation. -/
theorem Execute_empty_style_add (c : Collaborators σ Tree Pos Pair Size VV) (root : σ)
    (calls : List (Call Tree Pos Pair Size VV)) (vv : VV) (obj : Tree)
    (p : Ticket) (f t : Pos) (attrs : GoMap) (ex : Ticket)
    (hempty : attrs = none ∨ attrs = some [])
    (hparent : c.FindByCreatedAt root p = Element.tree obj) :
    ((TreeStyle.madeCalls c ⟨NewTreeStyle p f t attrs ex, root, calls⟩ vv).take 2 =
        [Call.FindByCreatedAt p, Call.RemoveStyle obj f t (some []) ex vv] ∧
      (TreeStyle.madeCalls c ⟨NewTreeStyle p f t attrs ex, root, calls⟩ vv).filter
          (fun k => k.isStyle || k.isRemoveStyle) =
        [Call.RemoveStyle obj f t (some []) ex vv] ∧
      (TreeStyle.madeCalls c ⟨NewTreeStyle p f t attrs ex, root, calls⟩ vv).countP
          Call.isStyle = 0) ∧
    (∀ (root1 : σ) (res : PrimResult Pair Size),
      c.RemoveStyle root obj f t (some []) ex vv = (root1, res) →
      (res.err = none →
        TreeStyle.Execute c ⟨NewTreeStyle p f t attrs ex, root, calls⟩ vv =
          ({ op := NewTreeStyle p f t attrs ex
             root := c.Acc (foldPairs c res.pairs root1 res.diff).1
               (foldPairs c res.pairs root1 res.diff).2
             calls := calls ++ (Call.FindByCreatedAt p ::
               Call.RemoveStyle obj f t (some []) ex vv ::
               (pairCalls c res.pairs root1 res.diff ++
                 [Call.Acc (foldPairs c res.pairs root1 res.diff).2])) },
            none)) ∧
      (∀ err, res.err = some err →
        TreeStyle.Execute c ⟨NewTreeStyle p f t attrs ex, root, calls⟩ vv =
          ({ op := NewTreeStyle p f t attrs ex
             root := root1
             calls := calls ++ [Call.FindByCreatedAt p,
               Call.RemoveStyle obj f t (some []) ex vv] },
            some err))) ∧
    (∀ (s : State σ Tree Pos Pair Size VV) (obj2 : Tree),
      c.FindByCreatedAt s.root s.op.parentCreatedAt = Element.tree obj2 →
      (TreeStyle.madeCalls c s vv).any Call.isStyle = decide (0 < s.op.attributes.len) ∧
      (TreeStyle.madeCalls c s vv).any Call.isRemoveStyle =
        decide (s.op.attributes.len = 0)) := by
  have hlen : (NewTreeStyle p f t attrs ex).attributes.len = 0 := by
    rcases hempty with h | h <;> simp [h, NewTreeStyle, GoMap.len]
  refine ⟨?_, ?_, ?_⟩
  · obtain ⟨rest, hM, hrest⟩ := madeCalls_remove c ⟨NewTreeStyle p f t attrs ex, root, calls⟩
      vv obj hparent hlen
    obtain ⟨h1, -, -, -⟩ := no_primitive_counts rest hrest
    rw [hM]
    refine ⟨by simp [NewTreeStyle], ?_, ?_⟩
    · rw [List.filter_cons_of_neg (by simp [Call.isStyle, Call.isRemoveStyle]),
        List.filter_cons_of_pos (by simp [Call.isStyle, Call.isRemoveStyle]), hrest]
      simp [NewTreeStyle]
    · simp [List.countP_cons, Call.isStyle, h1]
  · intro root1 res hp
    constructor
    · intro herr
      exact Execute_remove_ok c ⟨NewTreeStyle p f t attrs ex, root, calls⟩ vv obj root1 res
        hparent hlen hp herr
    · intro err herr
      exact Execute_remove_err c ⟨NewTreeStyle p f t attrs ex, root, calls⟩ vv obj root1 res
        err hparent hlen hp herr
  · intro s obj2 hpar
    rcases Nat.eq_zero_or_pos s.op.attributes.len with h0 | hpos
    · obtain ⟨rest, hM, hrest⟩ := madeCalls_remove c s vv obj2 hpar h0
      obtain ⟨-, -, h3, h4⟩ := no_primitive_counts rest hrest
      rw [hM]
      simp [List.any_cons, Call.isStyle, Call.isRemoveStyle, h3, h0]
    · obtain ⟨rest, hM, hrest⟩ := madeCalls_style c s vv obj2 hpar hpos
      obtain ⟨-, -, h3, h4⟩ := no_primitive_counts rest hrest
      rw [hM]
      have hne : s.op.attributes.len ≠ 0 := Nat.pos_iff_ne_zero.mp hpos
      simp [List.any_cons, Call.isStyle, Call.isRemoveStyle, h4, hpos, hne]

/-- C10 (Execute does not modify the operation): for every operation, root, collaborators
and version vector, whatever `Execute` returns, the operation after the call is the
operation before it, field by field, so every accessor returns after the call what it
returned before. -/
theorem Execute_keeps_operation (c : Collaborators σ Tree Pos Pair Size VV)
    (s : State σ Tree Pos Pair Size VV) (vv : VV) :
    (TreeStyle.Execute c s vv).1.op = s.op ∧
    ((TreeStyle.Execute c s vv).1.op.parentCreatedAt = s.op.parentCreatedAt ∧
      (TreeStyle.Execute c s vv).1.op.from_ = s.op.from_ ∧
      (TreeStyle.Execute c s vv).1.op.to_ = s.op.to_ ∧
      (TreeStyle.Execute c s vv).1.op.attributes = s.op.attributes ∧
      (TreeStyle.Execute c s vv).1.op.attributesToRemove = s.op.attributesToRemove ∧
      (TreeStyle.Execute c s vv).1.op.executedAt = s.op.executedAt) ∧
    ((TreeStyle.Execute c s vv).1.op.ParentCreatedAt.2 = s.op.ParentCreatedAt.2 ∧
      (TreeStyle.Execute c s vv).1.op.FromPos.2 = s.op.FromPos.2 ∧
      (TreeStyle.Execute c s vv).1.op.ToPos.2 = s.op.ToPos.2 ∧
      (TreeStyle.Execute c s vv).1.op.Attributes.2 = s.op.Attributes.2 ∧
      (TreeStyle.Execute c s vv).1.op.AttributesToRemove.2 = s.op.AttributesToRemove.2 ∧
      (TreeStyle.Execute c s vv).1.op.ExecutedAt.2 = s.op.ExecutedAt.2) := by
  have h := Execute_op_eq c s vv
  rw [h]
  simp

end Claims

/-- Witness of C1: `demoNoTree` has a parent that is not a tree. -/
theorem Execute_type_check_gate_witness :
    (∀ obj, demo.FindByCreatedAt (demoState demoNoTree).root
      (demoState demoNoTree).op.parentCreatedAt ≠ Element.tree obj) ∧
    (TreeStyle.Execute demo (demoState demoNoTree) 9).2 =
      some GoError.ErrNotApplicableDataType ∧
    (TreeStyle.Execute demo (demoState demoNoTree) 9).1.root = { registry := [], usage := 0 } ∧
    TreeStyle.madeCalls demo (demoState demoNoTree) 9 =
      [Call.FindByCreatedAt (demoTicket 2)] :=
  have hyp : ∀ obj, demo.FindByCreatedAt (demoState demoNoTree).root
      (demoState demoNoTree).op.parentCreatedAt ≠ Element.tree obj := by
    intro obj h
    have h2 : (Element.other : Element Nat) = Element.tree obj := h
    cases h2
  have h := Execute_type_check_gate demo (demoState demoNoTree) 9 hyp
  ⟨hyp, h.1, h.2.1, h.2.2.1⟩

/-- Witness of C2: `Style` fails on the range of `demoBadRange`, returning a pair and a
diff with the error. -/
theorem Execute_primitive_error_witness :
    demo.Style (demoState demoBadRange).root 7 6 5 (some [("bold", "true")]) (demoTicket 5) 9 =
      ({ registry := [], usage := 0 }, ⟨[5], 1, some (GoError.other "bad range")⟩) ∧
    (TreeStyle.Execute demo (demoState demoBadRange) 9).2 =
      some (GoError.other "bad range") ∧
    (TreeStyle.Execute demo (demoState demoBadRange) 9).1.root =
      { registry := [], usage := 0 } ∧
    (TreeStyle.madeCalls demo (demoState demoBadRange) 9).countP Call.isRegisterGCPair = 0 ∧
    (TreeStyle.madeCalls demo (demoState demoBadRange) 9).countP Call.isAcc = 0 :=
  have h := Execute_primitive_error demo (demoState demoBadRange) 9 7
    { registry := [], usage := 0 } ⟨[5], 1, some (GoError.other "bad range")⟩
    (GoError.other "bad range") (by decide) (Or.inl ⟨by decide, by decide⟩) rfl
  ⟨by decide, h.1, h.2.1, h.2.2.1, h.2.2.2.2⟩

/-- Witness of C3: `Style` succeeds on `demoAdd` with the pairs 3 and 4 and the diff 10;
both pairs are registered and 10 - 3 - 4 = 3 is accumulated. -/
theorem Execute_accounting_witness :
    demo.Style (demoState demoAdd).root 7 0 5 (some [("bold", "true")]) (demoTicket 5) 9 =
      ({ registry := [], usage := 0 }, ⟨[3, 4], 10, none⟩) ∧
    (TreeStyle.Execute demo (demoState demoAdd) 9).2 = none ∧
    (TreeStyle.Execute demo (demoState demoAdd) 9).1.root =
      { registry := [3, 4], usage := 3 } ∧
    (TreeStyle.madeCalls demo (demoState demoAdd) 9).filterMap Call.registered = [3, 4] ∧
    (TreeStyle.madeCalls demo (demoState demoAdd) 9).filterMap Call.accumulated = [3] :=
  have h := Execute_accounting demo (demoState demoAdd) 9 7
    { registry := [], usage := 0 } ⟨[3, 4], 10, none⟩
    (by decide) (Or.inl ⟨by decide, by decide⟩) rfl
  ⟨by decide, h.1, h.2.1, h.2.2.2.1, h.2.2.2.2.2.2.2.1⟩

/-- Witness of C4: the parent of `demoRemove` is the tree 7 and its attributes map is
empty, so the one primitive call is `RemoveStyle`, whose pair 6 and diff -2 reach the
root; the attributes of `demoBadRange` are non-empty, so `Style` is called and its error
is what `Execute` returns. -/
theorem Execute_dispatch_witness :
    demo.FindByCreatedAt (demoState demoRemove).root (demoState demoRemove).op.parentCreatedAt =
      Element.tree 7 ∧
    (TreeStyle.madeCalls demo (demoState demoRemove) 9).filter
        (fun k => k.isStyle || k.isRemoveStyle) =
      [Call.RemoveStyle 7 0 5 (some ["bold"]) (demoTicket 6) 9] ∧
    (TreeStyle.madeCalls demo (demoState demoRemove) 9).countP Call.isStyle = 0 ∧
    TreeStyle.Execute demo (demoState demoRemove) 9 =
      ({ op := demoRemove
         root := { registry := [6], usage := -8 }
         calls := [Call.FindByCreatedAt (demoTicket 1),
           Call.RemoveStyle 7 0 5 (some ["bold"]) (demoTicket 6) 9,
           Call.RegisterGCPair 6, Call.AdjustDiffForGCPair (-2) 6, Call.Acc (-8)] },
        none) ∧
    (TreeStyle.madeCalls demo (demoState demoBadRange) 9).filter
        (fun k => k.isStyle || k.isRemoveStyle) =
      [Call.Style 7 6 5 (some [("bold", "true")]) (demoTicket 5) 9] ∧
    TreeStyle.Execute demo (demoState demoBadRange) 9 =
      ({ op := demoBadRange
         root := { registry := [], usage := 0 }
         calls := [Call.FindByCreatedAt (demoTicket 1),
           Call.Style 7 6 5 (some [("bold", "true")]) (demoTicket 5) 9] },
        some (GoError.other "bad range")) :=
  have h := (Execute_dispatch demo (demoState demoRemove) 9 7 (by decide)).2 (by decide)
  have g := (Execute_dispatch demo (demoState demoBadRange) 9 7 (by decide)).1 (by decide)
  have hp : demo.RemoveStyle (demoState demoRemove).root 7 (demoState demoRemove).op.from_
      (demoState demoRemove).op.to_ (demoState demoRemove).op.attributesToRemove
      (demoState demoRemove).op.executedAt 9 =
      ({ registry := [], usage := 0 }, ⟨[6], -2, none⟩) := by decide
  have gp : demo.Style (demoState demoBadRange).root 7 (demoState demoBadRange).op.from_
      (demoState demoBadRange).op.to_ (demoState demoBadRange).op.attributes
      (demoState demoBadRange).op.executedAt 9 =
      ({ registry := [], usage := 0 }, ⟨[5], 1, some (GoError.other "bad range")⟩) := by
    decide
  ⟨by decide, h.2.1, h.2.2.2.1,
    ((h.2.2.2.2 _ _ hp).2 rfl).trans (by decide),
    g.2.1,
    ((g.2.2.2.2 _ _ gp).1 (GoError.other "bad range") rfl).trans (by decide)⟩

/-- Witness of C9: a style-add with the nil attributes map on the tree 7 calls
`RemoveStyle` with the empty key list. -/
theorem Execute_empty_style_add_witness :
    demo.FindByCreatedAt { registry := [], usage := 0 } (demoTicket 1) = Element.tree 7 ∧
    (TreeStyle.madeCalls demo
        (demoState (NewTreeStyle (demoTicket 1) 0 5 none (demoTicket 5))) 9).filter
        (fun k => k.isStyle || k.isRemoveStyle) =
      [Call.RemoveStyle 7 0 5 (some []) (demoTicket 5) 9] ∧
    (TreeStyle.madeCalls demo
        (demoState (NewTreeStyle (demoTicket 1) 0 5 none (demoTicket 5))) 9).countP
        Call.isStyle = 0 :=
  have h := Execute_empty_style_add demo { registry := [], usage := 0 } [] 9 7
    (demoTicket 1) 0 5 none (demoTicket 5) (Or.inl rfl) (by decide)
  ⟨by decide, h.1.2.1, h.1.2.2⟩

end Yorkie
